import Mathlib

/-!
Shallow embedding of the orchestration core of the ai-orchestration-system
repository (src/backend/app/core/orchestrator.py, src/backend/app/agents/base.py,
src/backend/app/agents/coding_agent.py), and proofs about it.

Python floats for money are modelled as rationals (ℚ); Python `Dict[str, Any]`
payloads are modelled as association lists of strings; Python `datetime`
timestamp fields (`created_at` / `updated_at`), which no verified property
touches, are not carried in the state. Leading underscores of Python method
names (`_process_task`, `_check_cost_limit`, ...) are dropped. Python methods
that mutate `self` are modelled as functions returning the updated value.
The awaited agent model calls (the only real suspension points of the
asyncio lifecycle) are modelled by outcome parameters consumed exactly at the
program point of the corresponding call; a concrete interleaving of the
cooperative scheduler is a sequential composition of the atomic blocks
between those suspension points.
-/

namespace AIOrch

/-- TaskType enum from app/api/api_v1/endpoints/tasks.py. -/
inductive TaskType where
  | code
  | design
  | marketing
  deriving DecidableEq, Repr

/-- TaskPriority enum from app/api/api_v1/endpoints/tasks.py. -/
inductive TaskPriority where
  | low
  | medium
  | high
  deriving DecidableEq, Repr

/-- TaskStatus enum from app/api/api_v1/endpoints/tasks.py. -/
inductive TaskStatus where
  | pending
  | in_progress
  | verifying
  | completed
  | failed
  deriving DecidableEq, Repr

/-- AgentStatus enum from app/api/api_v1/endpoints/agents.py. -/
inductive AgentStatus where
  | idle
  | busy
  | error
  | offline
  deriving DecidableEq, Repr

/-- AgentResult model from app/agents/base.py (pydantic BaseModel).
`output` and `metadata` are `Dict[str, Any]` payloads, modelled as string
association lists; `cost` is a float, modelled as ℚ. -/
structure AgentResult where
  success : Bool
  output : List (String × String)
  error : Option String
  tokens_used : Nat
  cost : ℚ
  metadata : List (String × String)
  deriving DecidableEq, Repr

/-- TaskManager state from app/core/orchestrator.py (fields set in `__init__`
except the unmodelled `created_at` / `updated_at` timestamps). -/
structure TaskManager where
  task_id : String
  type : TaskType
  priority : TaskPriority
  status : TaskStatus
  progress : ℚ
  result : Option AgentResult
  error : Option String
  cost : ℚ
  deriving DecidableEq, Repr

/-- TaskManager.__init__: status PENDING, progress 0.0, result None,
error None, cost 0.0. -/
def TaskManager.init (task_id : String) (task_type : TaskType)
    (priority : TaskPriority) : TaskManager :=
  { task_id := task_id
    type := task_type
    priority := priority
    status := TaskStatus.pending
    progress := 0
    result := none
    error := none
    cost := 0 }

/-- TaskManager.update_status: sets `status` unconditionally and sets
`progress` when the optional argument is given (`progress=None` keeps it).
The `updated_at` refresh is not modelled. -/
def TaskManager.update_status (t : TaskManager) (status : TaskStatus)
    (progress : Option ℚ) : TaskManager :=
  { t with
    status := status
    progress := match progress with
      | some p => p
      | none => t.progress }

/-- BaseAgent mutable state from app/agents/base.py `__init__`
(the `agent_type` tag and the per-subclass model handles are not needed by
any verified property and are omitted). -/
structure Agent where
  agent_id : String
  status : AgentStatus
  current_task_id : Option String
  total_tasks_completed : Nat
  total_cost : ℚ
  total_tokens : Nat
  deriving DecidableEq, Repr

/-- BaseAgent.__init__: status IDLE, no current task, zeroed counters. -/
def Agent.init (agent_id : String) : Agent :=
  { agent_id := agent_id
    status := AgentStatus.idle
    current_task_id := none
    total_tasks_completed := 0
    total_cost := 0
    total_tokens := 0 }

/-- BaseAgent._update_status. -/
def Agent.update_status (a : Agent) (new_status : AgentStatus) : Agent :=
  { a with status := new_status }

/-- BaseAgent._track_usage: adds tokens and cost to the cumulative counters. -/
def Agent.track_usage (a : Agent) (tokens : Nat) (cost : ℚ) : Agent :=
  { a with
    total_tokens := a.total_tokens + tokens
    total_cost := a.total_cost + cost }

/-- BaseAgent.prepare_task: returns False (here `none`) when the agent is not
IDLE, leaving it unchanged; otherwise records the task id, moves the agent to
BUSY and returns True (here the updated agent). -/
def Agent.prepare_task (a : Agent) (task_id : String) : Option Agent :=
  if a.status = AgentStatus.idle then
    some (({ a with current_task_id := some task_id }).update_status AgentStatus.busy)
  else
    none

/-- BaseAgent.cleanup_task: clears the current task id, bumps the completion
counter and moves the agent back to IDLE. -/
def Agent.cleanup_task (a : Agent) : Agent :=
  ({ a with
      current_task_id := none
      total_tasks_completed := a.total_tasks_completed + 1 }).update_status AgentStatus.idle

/-- BaseAgent.handle_error: moves the agent to ERROR and clears the current
task id. -/
def Agent.handle_error (a : Agent) : Agent :=
  { a.update_status AgentStatus.error with current_task_id := none }

/-- Outcome of the awaited generative-model call inside
CodingAgent.execute_task: either the call returns a response which
`_parse_response` turns into an AgentResult (`result`, which may itself be the
parse-failure AgentResult) with `response.usage.total_tokens = tokens`, or
some step of the try block after `prepare_task` raises an exception whose
string is `msg`. -/
inductive ModelOutcome where
  | ok (result : AgentResult) (tokens : Nat)
  | raises (msg : String)
  deriving DecidableEq, Repr

/-- Outcome of the awaited verification-model call inside
CodingAgent.validate_result: a returned response text with its token count,
or a raised exception. -/
inductive ValidationOutcome where
  | ok (text : String) (tokens : Nat)
  | raises (msg : String)
  deriving DecidableEq, Repr

/-- CodingAgent._calculate_cost: tokens times 0.002 for the verification
model, 0.001 otherwise. -/
def calculate_cost (tokens : Nat) (is_verification : Bool) : ℚ :=
  let base_rate : ℚ := if is_verification then 2 / 1000 else 1 / 1000
  tokens * base_rate

/-- Python `sub in s` substring test, used for `"VALID" in text.upper()`. -/
def containsSubstring (s sub : String) : Bool :=
  (s.splitOn sub).length ≥ 2

namespace CodingAgent

/-- CodingAgent.execute_task (app/agents/coding_agent.py; DesignAgent and
MarketingAgent have the same control structure): if `prepare_task` returns
False the agent is untouched and a failure AgentResult
"Agent is busy or unavailable" is returned; if the model call raises,
`handle_error` is applied (agent → ERROR) and a failure AgentResult carrying
the exception string is returned; otherwise the parsed result is returned
after `_track_usage` and `cleanup_task` (agent → IDLE). `_get_rag_context`
and `_store_result` are `pass`/`return []` stubs and are omitted. -/
def execute_task (a : Agent) (task_id : String) (outcome : ModelOutcome) :
    AgentResult × Agent :=
  match a.prepare_task task_id with
  | none =>
      ({ success := false
         output := []
         error := some "Agent is busy or unavailable"
         tokens_used := 0
         cost := 0
         metadata := [] }, a)
  | some a1 =>
      match outcome with
      | ModelOutcome.raises msg =>
          ({ success := false
             output := []
             error := some msg
             tokens_used := 0
             cost := 0
             metadata := [] }, a1.handle_error)
      | ModelOutcome.ok result tokens =>
          let a2 := a1.track_usage tokens (calculate_cost tokens false)
          (result, a2.cleanup_task)

/-- CodingAgent.validate_result: returns False for an unsuccessful result;
returns True when `result.output.get("code")` is falsy (missing or empty,
"no code to validate"); otherwise performs the verification-model call:
a raised exception is caught, `handle_error` is applied and False is
returned; a returned response is charged via `_track_usage` and validity is
`"VALID" in text.upper()`. -/
def validate_result (a : Agent) (result : AgentResult)
    (outcome : ValidationOutcome) : Bool × Agent :=
  if result.success = false then
    (false, a)
  else
    match result.output.lookup "code" with
    | none => (true, a)
    | some code =>
        if code = "" then
          (true, a)
        else
          match outcome with
          | ValidationOutcome.raises _ => (false, a.handle_error)
          | ValidationOutcome.ok text tokens =>
              let a1 := a.track_usage tokens (calculate_cost tokens true)
              (containsSubstring text.toUpper "VALID", a1)

end CodingAgent

/-- Orchestrator._get_available_agent: the for-loop returning the first agent
of the category's list whose status is "idle", or None when there is none.
The pool is not modified. -/
def get_available_agent : List Agent → Option Agent
  | [] => none
  | agent :: rest =>
      if agent.status = AgentStatus.idle then some agent
      else get_available_agent rest

/-- Orchestrator._check_cost_limit on the ledger fields
(`self._total_cost`, `settings.COST_LIMIT`, `self._cost_limit_reached`):
returns (check passed?, new `_cost_limit_reached`). When
`total + estimated > limit` the sticky flag is set (the Python guard
`if not self._cost_limit_reached` only avoids a redundant write) and the
check fails; otherwise it passes with the flag unchanged. -/
def check_cost_limit (total_cost limit : ℚ) (cost_limit_reached : Bool)
    (estimated_cost : ℚ) : Bool × Bool :=
  if total_cost + estimated_cost > limit then
    (false, if cost_limit_reached = false then true else cost_limit_reached)
  else
    (true, cost_limit_reached)

/-- The orchestrator state touched by one task's lifecycle: the agent pool of
the task's category (`self._agents[task.type]`), the registry entry
`self._tasks[task_id]` the lifecycle works on, and the ledger fields
`self._total_cost` / `self._cost_limit_reached`. -/
structure OrchState where
  agents : List Agent
  task : TaskManager
  total_cost : ℚ
  cost_limit_reached : Bool
  deriving DecidableEq, Repr

/-- An atomic block of Orchestrator._process_task either returns (`done`) or
reaches the next `await` of an agent model call (`suspended`). -/
inductive LifecycleStage where
  | done (st : OrchState)
  | suspended (st : OrchState)
  deriving DecidableEq, Repr

/-- Orchestrator._process_task, first atomic block (entry up to the await of
`agent.execute_task`): if no idle agent exists the task is set FAILED with
error "No available agent found" and the lifecycle returns; otherwise the
task is set IN_PROGRESS with progress 0.2 and the lifecycle suspends at the
execute call. Note that the selected agent is not marked busy here: that
happens only inside `execute_task` via `prepare_task`. -/
def process_task_acquire (st : OrchState) : LifecycleStage :=
  match get_available_agent st.agents with
  | none =>
      LifecycleStage.done
        { st with
          task := { st.task.update_status TaskStatus.failed none with
                    error := some "No available agent found" } }
  | some _ =>
      LifecycleStage.suspended
        { st with
          task := st.task.update_status TaskStatus.in_progress (some (1 / 5)) }

/-- Orchestrator._process_task, second atomic block (from the return of
`agent.execute_task` with `result` up to the await of
`agent.validate_result`): for a successful result, `new_cost` is computed,
the cost check runs; on pass the ledger and `task.cost` are updated and the
task moves to VERIFYING with progress 0.8, suspending at the validate call;
on failure the task is set FAILED with "Cost limit reached" and the
lifecycle returns. An unsuccessful result skips both `if result.success`
blocks and lands in the final else: FAILED with `error := result.error`. -/
def process_task_track_cost (limit : ℚ) (st : OrchState)
    (result : AgentResult) : LifecycleStage :=
  if result.success then
    let new_cost := st.total_cost + result.cost
    match check_cost_limit st.total_cost limit st.cost_limit_reached result.cost with
    | (true, reached) =>
        LifecycleStage.suspended
          { st with
            total_cost := new_cost
            cost_limit_reached := reached
            task := ({ st.task with cost := result.cost }).update_status
                      TaskStatus.verifying (some (4 / 5)) }
    | (false, reached) =>
        LifecycleStage.done
          { st with
            cost_limit_reached := reached
            task := { st.task.update_status TaskStatus.failed none with
                      error := some "Cost limit reached" } }
  else
    LifecycleStage.done
      { st with
        task := { st.task.update_status TaskStatus.failed none with
                  error := result.error } }

/-- Orchestrator._process_task, final atomic block (from the return of
`agent.validate_result` with `is_valid`): invalid results set FAILED with
"Result validation failed"; otherwise the trailing `if result.success` sets
COMPLETED with progress 1.0 and stores the result (the else branch of that
trailing if is unreachable on this path but kept as in the source). -/
def process_task_finish (st : OrchState) (result : AgentResult)
    (is_valid : Bool) : OrchState :=
  if is_valid = false then
    { st with
      task := { st.task.update_status TaskStatus.failed none with
                error := some "Result validation failed" } }
  else if result.success then
    { st with
      task := { st.task.update_status TaskStatus.completed (some 1) with
                result := some result } }
  else
    { st with
      task := { st.task.update_status TaskStatus.failed none with
                error := result.error } }

/-- Orchestrator._process_task run with no interleaved operation:
`execResult` is what the awaited `agent.execute_task` returns and
`is_valid` what the awaited `agent.validate_result` returns (the concrete
agents catch their own exceptions, so these calls return normally). -/
def process_task (limit : ℚ) (st : OrchState) (execResult : AgentResult)
    (is_valid : Bool) : OrchState :=
  match process_task_acquire st with
  | LifecycleStage.done st1 => st1
  | LifecycleStage.suspended st1 =>
      match process_task_track_cost limit st1 execResult with
      | LifecycleStage.done st2 => st2
      | LifecycleStage.suspended st2 => process_task_finish st2 execResult is_valid

/-- Orchestrator.cancel_task, effect on the registry entry once found:
returns False leaving the task unchanged when it is COMPLETED or FAILED,
otherwise sets FAILED (progress untouched), error "Task cancelled by user"
and returns True. -/
def cancel_task_entry (t : TaskManager) : Bool × TaskManager :=
  if t.status = TaskStatus.completed ∨ t.status = TaskStatus.failed then
    (false, t)
  else
    (true, { t.update_status TaskStatus.failed none with
             error := some "Task cancelled by user" })

/-- The interleaving of the cooperative scheduler in which a cancel_task call
for the same task id runs while the lifecycle is suspended in the await of
`agent.execute_task` (the cancel finds the task IN_PROGRESS, flips it to
FAILED, and the lifecycle then resumes). -/
def process_task_cancel_during_execute (limit : ℚ) (st : OrchState)
    (execResult : AgentResult) (is_valid : Bool) : OrchState :=
  match process_task_acquire st with
  | LifecycleStage.done st1 => st1
  | LifecycleStage.suspended st1 =>
      let st1c := { st1 with task := (cancel_task_entry st1.task).2 }
      match process_task_track_cost limit st1c execResult with
      | LifecycleStage.done st2 => st2
      | LifecycleStage.suspended st2 => process_task_finish st2 execResult is_valid

/-- Read projection of a task returned by Orchestrator.get_task_status
(timestamps omitted as in `TaskManager`). -/
structure TaskStatusView where
  id : String
  type : TaskType
  status : TaskStatus
  progress : ℚ
  cost : ℚ
  result : Option (List (String × String))
  error : Option String
  deriving DecidableEq, Repr

/-- Orchestrator.get_task_status: raises ValueError("Task not found") when
the id is not in `self._tasks` (modelled as `Except.error`), otherwise
returns the projection, with `result` being `task.result.output` when a
result is present. -/
def get_task_status (tasks : List (String × TaskManager)) (task_id : String) :
    Except String TaskStatusView :=
  match tasks.lookup task_id with
  | none => Except.error "Task not found"
  | some t =>
      Except.ok
        { id := task_id
          type := t.type
          status := t.status
          progress := t.progress
          cost := t.cost
          result := t.result.map AgentResult.output
          error := t.error }

/-- Replaces the registry entry for `task_id` (models mutation of the
`TaskManager` object stored in `self._tasks`). -/
def setTask (tasks : List (String × TaskManager)) (task_id : String)
    (t : TaskManager) : List (String × TaskManager) :=
  tasks.map (fun p => if p.1 = task_id then (p.1, t) else p)

/-- Orchestrator.cancel_task: returns False when the id is unknown (no
exception is raised), returns False when the task is terminal, and otherwise
applies `cancel_task_entry` to the registry entry and returns True. -/
def cancel_task (tasks : List (String × TaskManager)) (task_id : String) :
    Bool × List (String × TaskManager) :=
  match tasks.lookup task_id with
  | none => (false, tasks)
  | some t =>
      match cancel_task_entry t with
      | (false, _) => (false, tasks)
      | (true, t') => (true, setTask tasks task_id t')

/-- Sequences of task lifecycles sharing the orchestrator's ledger: each step
runs `process_task` on a fresh registry entry `task'` (each lifecycle owns
its own task) with some agent result of non-negative cost and some
validation verdict, threading the pool and the ledger fields
(`total_cost`, `cost_limit_reached`) from one lifecycle to the next. -/
inductive LedgerReachable (limit : ℚ) (st : OrchState) : OrchState → Prop
  | refl : LedgerReachable limit st st
  | step (st' : OrchState) (task' : TaskManager) (r : AgentResult) (v : Bool) :
      0 ≤ r.cost → LedgerReachable limit st st' →
      LedgerReachable limit st (process_task limit { st' with task := task' } r v)

theorem check_cost_limit_pass (total limit : ℚ) (fl : Bool) (c : ℚ)
    (h : total + c ≤ limit) :
    check_cost_limit total limit fl c = (true, fl) := by
  unfold check_cost_limit
  simp [not_lt.mpr h]

theorem check_cost_limit_fail (total limit : ℚ) (fl : Bool) (c : ℚ)
    (h : limit < total + c) :
    check_cost_limit total limit fl c = (false, true) := by
  unfold check_cost_limit
  simp [h]

theorem process_task_acquire_none (st : OrchState)
    (h : get_available_agent st.agents = none) :
    process_task_acquire st =
      LifecycleStage.done
        { st with
          task := { st.task.update_status TaskStatus.failed none with
                    error := some "No available agent found" } } := by
  unfold process_task_acquire
  rw [h]

theorem process_task_acquire_some (st : OrchState) (a : Agent)
    (h : get_available_agent st.agents = some a) :
    process_task_acquire st =
      LifecycleStage.suspended
        { st with
          task := st.task.update_status TaskStatus.in_progress (some (1 / 5)) } := by
  unfold process_task_acquire
  rw [h]

theorem process_task_track_cost_pass (limit : ℚ) (st : OrchState)
    (r : AgentResult) (hs : r.success = true)
    (h : st.total_cost + r.cost ≤ limit) :
    process_task_track_cost limit st r =
      LifecycleStage.suspended
        { st with
          total_cost := st.total_cost + r.cost
          task := ({ st.task with cost := r.cost }).update_status
                    TaskStatus.verifying (some (4 / 5)) } := by
  unfold process_task_track_cost
  rw [check_cost_limit_pass st.total_cost limit st.cost_limit_reached r.cost h]
  simp [hs]

theorem process_task_track_cost_fail (limit : ℚ) (st : OrchState)
    (r : AgentResult) (hs : r.success = true)
    (h : limit < st.total_cost + r.cost) :
    process_task_track_cost limit st r =
      LifecycleStage.done
        { st with
          cost_limit_reached := true
          task := { st.task.update_status TaskStatus.failed none with
                    error := some "Cost limit reached" } } := by
  unfold process_task_track_cost
  rw [check_cost_limit_fail st.total_cost limit st.cost_limit_reached r.cost h]
  simp [hs]

theorem process_task_track_cost_unsuccessful (limit : ℚ) (st : OrchState)
    (r : AgentResult) (hs : r.success = false) :
    process_task_track_cost limit st r =
      LifecycleStage.done
        { st with
          task := { st.task.update_status TaskStatus.failed none with
                    error := r.error } } := by
  unfold process_task_track_cost
  simp [hs]

theorem process_task_eq_of_acquire_done (limit : ℚ) (st st1 : OrchState)
    (r : AgentResult) (v : Bool)
    (h : process_task_acquire st = LifecycleStage.done st1) :
    process_task limit st r v = st1 := by
  unfold process_task
  rw [h]

theorem process_task_eq_of_track_done (limit : ℚ) (st st1 st2 : OrchState)
    (r : AgentResult) (v : Bool)
    (h1 : process_task_acquire st = LifecycleStage.suspended st1)
    (h2 : process_task_track_cost limit st1 r = LifecycleStage.done st2) :
    process_task limit st r v = st2 := by
  unfold process_task
  rw [h1]
  dsimp only
  rw [h2]

theorem process_task_eq_of_track_suspended (limit : ℚ) (st st1 st2 : OrchState)
    (r : AgentResult) (v : Bool)
    (h1 : process_task_acquire st = LifecycleStage.suspended st1)
    (h2 : process_task_track_cost limit st1 r = LifecycleStage.suspended st2) :
    process_task limit st r v = process_task_finish st2 r v := by
  unfold process_task
  rw [h1]
  dsimp only
  rw [h2]

theorem process_task_finish_valid (st : OrchState) (r : AgentResult)
    (hs : r.success = true) :
    process_task_finish st r true =
      { st with
        task := { st.task.update_status TaskStatus.completed (some 1) with
                  result := some r } } := by
  unfold process_task_finish
  simp [hs]

theorem process_task_finish_invalid (st : OrchState) (r : AgentResult) :
    process_task_finish st r false =
      { st with
        task := { st.task.update_status TaskStatus.failed none with
                  error := some "Result validation failed" } } := by
  unfold process_task_finish
  simp

theorem process_task_finish_total_cost (st : OrchState) (r : AgentResult)
    (v : Bool) : (process_task_finish st r v).total_cost = st.total_cost := by
  unfold process_task_finish
  split_ifs <;> rfl

theorem process_task_finish_reached (st : OrchState) (r : AgentResult)
    (v : Bool) :
    (process_task_finish st r v).cost_limit_reached = st.cost_limit_reached := by
  unfold process_task_finish
  split_ifs <;> rfl

/-- Ledger effect of a single lifecycle: the total is unchanged unless the
result was successful and the cost check passed, in which case it grows by
exactly the result's cost, which the check bounded by the limit. -/
theorem process_task_total_cost_cases (limit : ℚ) (st : OrchState)
    (r : AgentResult) (v : Bool) :
    (process_task limit st r v).total_cost = st.total_cost ∨
      ((process_task limit st r v).total_cost = st.total_cost + r.cost ∧
        r.success = true ∧ st.total_cost + r.cost ≤ limit ∧
        (check_cost_limit st.total_cost limit st.cost_limit_reached
          r.cost).1 = true) := by
  cases hA : get_available_agent st.agents with
  | none =>
      rw [process_task_eq_of_acquire_done limit st _ r v
        (process_task_acquire_none st hA)]
      left; rfl
  | some a =>
      have h1 := process_task_acquire_some st a hA
      cases hs : r.success with
      | false =>
          rw [process_task_eq_of_track_done limit st _ _ r v h1
            (process_task_track_cost_unsuccessful limit _ r hs)]
          left; rfl
      | true =>
          rcases le_or_lt (st.total_cost + r.cost) limit with hle | hgt
          · rw [process_task_eq_of_track_suspended limit st _ _ r v h1
              (process_task_track_cost_pass limit _ r hs hle)]
            right
            refine ⟨?_, rfl, hle, ?_⟩
            · rw [process_task_finish_total_cost]
            · rw [check_cost_limit_pass st.total_cost limit
                st.cost_limit_reached r.cost hle]
          · rw [process_task_eq_of_track_done limit st _ _ r v h1
              (process_task_track_cost_fail limit _ r hs hgt)]
            left; rfl

theorem process_task_total_cost_mono (limit : ℚ) (st : OrchState)
    (r : AgentResult) (v : Bool) (hc : 0 ≤ r.cost) :
    st.total_cost ≤ (process_task limit st r v).total_cost := by
  rcases process_task_total_cost_cases limit st r v with h | ⟨h, _, _, _⟩
  · exact le_of_eq h.symm
  · rw [h]; linarith

theorem process_task_total_cost_le_limit (limit : ℚ) (st : OrchState)
    (r : AgentResult) (v : Bool) (hst : st.total_cost ≤ limit) :
    (process_task limit st r v).total_cost ≤ limit := by
  rcases process_task_total_cost_cases limit st r v with h | ⟨h, _, hle, _⟩ <;>
    rw [h]
  · exact hst
  · exact hle

/-- C2 (confirmed): across any sequence of task lifecycles the ledger total
starting from the constructor's 0 never exceeds the configured limit
(given a non-negative limit), is monotonically non-decreasing (lifecycle
costs being non-negative), and a single lifecycle changes it only by the
one reserve step whose cost check passed, adding exactly the result's cost. -/
theorem cost_ledger_invariant (limit : ℚ) (hlim : 0 ≤ limit) :
    (∀ st st', LedgerReachable limit st st' → st.total_cost = 0 →
      st'.total_cost ≤ limit) ∧
    (∀ st st', LedgerReachable limit st st' →
      st.total_cost ≤ st'.total_cost) ∧
    (∀ st r v, (process_task limit st r v).total_cost = st.total_cost ∨
      ((process_task limit st r v).total_cost = st.total_cost + r.cost ∧
        r.success = true ∧
        (check_cost_limit st.total_cost limit st.cost_limit_reached
          r.cost).1 = true)) := by
  refine ⟨?_, ?_, ?_⟩
  · intro st st' hreach h0
    induction hreach with
    | refl => rw [h0]; exact hlim
    | step st'' task' r v hc hprev ih =>
        exact process_task_total_cost_le_limit limit _ r v ih
  · intro st st' hreach
    induction hreach with
    | refl => exact le_refl _
    | step st'' task' r v hc hprev ih =>
        exact le_trans ih (process_task_total_cost_mono limit _ r v hc)
  · intro st r v
    rcases process_task_total_cost_cases limit st r v with h | ⟨h1, h2, _, h4⟩
    · exact Or.inl h
    · exact Or.inr ⟨h1, h2, h4⟩

/-- Closed instance of `cost_ledger_invariant` at limit 5 with one lifecycle
of cost 2 from an empty ledger. -/
theorem cost_ledger_invariant_witness :
    (let a0 : Agent := Agent.init "coding-agent-1"
     let t0 : TaskManager := TaskManager.init "t1" TaskType.code TaskPriority.medium
     let st0 : OrchState :=
       { agents := [a0], task := t0, total_cost := 0, cost_limit_reached := false }
     let r2 : AgentResult :=
       { success := true, output := [("code", "x")], error := none,
         tokens_used := 10, cost := 2, metadata := [] }
     (process_task 5 { st0 with task := t0 } r2 true).total_cost ≤ 5 ∧
       st0.total_cost ≤ (process_task 5 { st0 with task := t0 } r2 true).total_cost) := by
  have h := cost_ledger_invariant 5 (by norm_num)
  refine ⟨?_, ?_⟩
  · exact h.1 _ _
      (LedgerReachable.step _ _ _ true (by norm_num) LedgerReachable.refl) rfl
  · exact h.2.1 _ _
      (LedgerReachable.step _ _ _ true (by norm_num) LedgerReachable.refl)

/-- C3 (confirmed): when a lifecycle's agent execution succeeds with a cost
that would push the ledger past the limit, the reservation is rejected: the
task ends Failed with error "Cost limit reached", the ledger total is
unchanged, the sticky `_cost_limit_reached` flag is true, and the task's
accrued cost stays 0. -/
theorem cost_limit_rejection (limit : ℚ) (st : OrchState) (r : AgentResult)
    (v : Bool) (id : String) (ty : TaskType) (pr : TaskPriority)
    (hagent : (get_available_agent st.agents).isSome = true)
    (hsucc : r.success = true)
    (hover : limit < st.total_cost + r.cost) :
    (process_task limit { st with task := TaskManager.init id ty pr } r
        v).task.status = TaskStatus.failed ∧
    (process_task limit { st with task := TaskManager.init id ty pr } r
        v).task.error = some "Cost limit reached" ∧
    (process_task limit { st with task := TaskManager.init id ty pr } r
        v).total_cost = st.total_cost ∧
    (process_task limit { st with task := TaskManager.init id ty pr } r
        v).cost_limit_reached = true ∧
    (process_task limit { st with task := TaskManager.init id ty pr } r
        v).task.cost = 0 := by
  obtain ⟨a, ha⟩ := Option.isSome_iff_exists.mp hagent
  have h1 := process_task_acquire_some
    { st with task := TaskManager.init id ty pr } a ha
  rw [process_task_eq_of_track_done limit _ _ _ r v h1
    (process_task_track_cost_fail limit _ r hsucc hover)]
  exact ⟨rfl, rfl, rfl, rfl, rfl⟩

/-- Closed instance of `cost_limit_rejection`: Scenario B of the spec with
the executed cost raised to 1.0 against total 4.5 and limit 5.0. -/
theorem cost_limit_rejection_witness :
    (let a0 : Agent := Agent.init "coding-agent-1"
     let stB : OrchState :=
       { agents := [a0], task := TaskManager.init "t0" TaskType.code TaskPriority.low,
         total_cost := 9 / 2, cost_limit_reached := false }
     let r1 : AgentResult :=
       { success := true, output := [], error := none,
         tokens_used := 0, cost := 1, metadata := [] }
     let st' := process_task 5
       { stB with task := TaskManager.init "t1" TaskType.code TaskPriority.medium } r1 true
     st'.task.status = TaskStatus.failed ∧
       st'.task.error = some "Cost limit reached" ∧
       st'.total_cost = 9 / 2 ∧
       st'.cost_limit_reached = true ∧
       st'.task.cost = 0) := by
  exact cost_limit_rejection 5 _ _ true "t1" TaskType.code TaskPriority.medium
    (by decide) rfl (by norm_num)

/-- C8 (confirmed): a lifecycle whose execution succeeds with cost `r.cost`,
whose reservation passes, and whose validation returns true ends with the
task Completed at progress 1.0, the execution result stored, the task's
accrued cost equal to `r.cost`, and the ledger total increased by exactly
`r.cost`. -/
theorem successful_lifecycle (limit : ℚ) (st : OrchState) (r : AgentResult)
    (id : String) (ty : TaskType) (pr : TaskPriority)
    (hagent : (get_available_agent st.agents).isSome = true)
    (hsucc : r.success = true)
    (hfits : st.total_cost + r.cost ≤ limit) :
    (process_task limit { st with task := TaskManager.init id ty pr } r
        true).task.status = TaskStatus.completed ∧
    (process_task limit { st with task := TaskManager.init id ty pr } r
        true).task.progress = 1 ∧
    (process_task limit { st with task := TaskManager.init id ty pr } r
        true).task.result = some r ∧
    (process_task limit { st with task := TaskManager.init id ty pr } r
        true).task.cost = r.cost ∧
    (process_task limit { st with task := TaskManager.init id ty pr } r
        true).total_cost = st.total_cost + r.cost := by
  obtain ⟨a, ha⟩ := Option.isSome_iff_exists.mp hagent
  have h1 := process_task_acquire_some
    { st with task := TaskManager.init id ty pr } a ha
  rw [process_task_eq_of_track_suspended limit _ _ _ r true h1
    (process_task_track_cost_pass limit _ r hsucc hfits),
    process_task_finish_valid _ r hsucc]
  exact ⟨rfl, rfl, rfl, rfl, rfl⟩

/-- Closed instance of `successful_lifecycle`: Scenario A of the spec, a
cost-2.0 success under limit 5.0 from total 0 ends Completed with
costAccrued 2.0 and ledger total 2.0. -/
theorem successful_lifecycle_witness :
    (let a0 : Agent := Agent.init "coding-agent-1"
     let st0 : OrchState :=
       { agents := [a0], task := TaskManager.init "t0" TaskType.code TaskPriority.low,
         total_cost := 0, cost_limit_reached := false }
     let r2 : AgentResult :=
       { success := true, output := [("code", "x")], error := none,
         tokens_used := 10, cost := 2, metadata := [] }
     let st' := process_task 5
       { st0 with task := TaskManager.init "t1" TaskType.code TaskPriority.medium } r2 true
     st'.task.status = TaskStatus.completed ∧
       st'.task.progress = 1 ∧
       st'.task.result = some r2 ∧
       st'.task.cost = 2 ∧
       st'.total_cost = 2) := by
  have h := successful_lifecycle 5
    { agents := [Agent.init "coding-agent-1"],
      task := TaskManager.init "t0" TaskType.code TaskPriority.low,
      total_cost := 0, cost_limit_reached := false }
    { success := true, output := [("code", "x")], error := none,
      tokens_used := 10, cost := 2, metadata := [] }
    "t1" TaskType.code TaskPriority.medium (by decide) rfl (by norm_num)
  exact ⟨h.1, h.2.1, h.2.2.1, by rw [h.2.2.2.1], by rw [h.2.2.2.2]; norm_num⟩

/-- C9 (confirmed): a lifecycle that reaches verification and whose
validation verdict is false ends Failed with error
"Result validation failed" while the task keeps its accrued cost and the
ledger total keeps the reserved amount (no refund); moreover a raised
exception inside CodingAgent.validate_result (possible only where the
verification-model call happens, i.e. for a successful result carrying a
non-empty "code" output) is caught and returned as the verdict false. -/
theorem validation_failure_lifecycle (limit : ℚ) (st : OrchState)
    (r : AgentResult) (id : String) (ty : TaskType) (pr : TaskPriority)
    (hagent : (get_available_agent st.agents).isSome = true)
    (hsucc : r.success = true)
    (hfits : st.total_cost + r.cost ≤ limit) :
    (process_task limit { st with task := TaskManager.init id ty pr } r
        false).task.status = TaskStatus.failed ∧
    (process_task limit { st with task := TaskManager.init id ty pr } r
        false).task.error = some "Result validation failed" ∧
    (process_task limit { st with task := TaskManager.init id ty pr } r
        false).task.cost = r.cost ∧
    (process_task limit { st with task := TaskManager.init id ty pr } r
        false).total_cost = st.total_cost + r.cost ∧
    (∀ (a : Agent) (res : AgentResult) (code msg : String),
      res.success = true → res.output.lookup "code" = some code →
      code ≠ "" →
      (CodingAgent.validate_result a res (ValidationOutcome.raises msg)).1
        = false) := by
  obtain ⟨a, ha⟩ := Option.isSome_iff_exists.mp hagent
  have h1 := process_task_acquire_some
    { st with task := TaskManager.init id ty pr } a ha
  rw [process_task_eq_of_track_suspended limit _ _ _ r false h1
    (process_task_track_cost_pass limit _ r hsucc hfits)]
  unfold process_task_finish
  refine ⟨rfl, rfl, rfl, rfl, ?_⟩
  intro a' res code msg hres hcode hne
  unfold CodingAgent.validate_result
  simp [hres, hcode, hne]

/-- Closed instance of `validation_failure_lifecycle`: Scenario E with cost
2.0 under limit 5.0, validation verdict false; the validate-raises clause is
instantiated at a concrete agent and result. -/
theorem validation_failure_lifecycle_witness :
    (let a0 : Agent := Agent.init "coding-agent-1"
     let st0 : OrchState :=
       { agents := [a0], task := TaskManager.init "t0" TaskType.code TaskPriority.low,
         total_cost := 0, cost_limit_reached := false }
     let r2 : AgentResult :=
       { success := true, output := [("code", "x")], error := none,
         tokens_used := 10, cost := 2, metadata := [] }
     let st' := process_task 5
       { st0 with task := TaskManager.init "t1" TaskType.code TaskPriority.medium } r2 false
     st'.task.status = TaskStatus.failed ∧
       st'.task.error = some "Result validation failed" ∧
       st'.task.cost = 2 ∧
       st'.total_cost = 2 ∧
       (CodingAgent.validate_result a0 r2 (ValidationOutcome.raises "boom")).1
         = false) := by
  have h := validation_failure_lifecycle 5
    { agents := [Agent.init "coding-agent-1"],
      task := TaskManager.init "t0" TaskType.code TaskPriority.low,
      total_cost := 0, cost_limit_reached := false }
    { success := true, output := [("code", "x")], error := none,
      tokens_used := 10, cost := 2, metadata := [] }
    "t1" TaskType.code TaskPriority.medium (by decide) rfl (by norm_num)
  exact ⟨h.1, h.2.1, by rw [h.2.2.1], by rw [h.2.2.2.1]; norm_num,
    h.2.2.2.2 _ _ "x" "boom" rfl rfl (by decide)⟩

theorem get_available_agent_spec (pool : List Agent) (a : Agent)
    (h : get_available_agent pool = some a) :
    a.status = AgentStatus.idle ∧ a ∈ pool := by
  induction pool with
  | nil => exact absurd h (by simp [get_available_agent])
  | cons b rest ih =>
      unfold get_available_agent at h
      split_ifs at h with hb
      · rcases Option.some.inj h with rfl
        exact ⟨hb, List.mem_cons_self b rest⟩
      · rcases ih h with ⟨h1, h2⟩
        exact ⟨h1, List.mem_cons_of_mem b h2⟩

theorem process_task_cancel_eq_of_track_suspended (limit : ℚ)
    (st st1 st2 : OrchState) (r : AgentResult) (v : Bool)
    (h1 : process_task_acquire st = LifecycleStage.suspended st1)
    (h2 : process_task_track_cost limit
      { st1 with task := (cancel_task_entry st1.task).2 } r =
      LifecycleStage.suspended st2) :
    process_task_cancel_during_execute limit st r v =
      process_task_finish st2 r v := by
  unfold process_task_cancel_during_execute
  rw [h1]
  dsimp only
  rw [h2]

/-- C1 (counterexample): TaskManager.update_status applies the illegal edge
Completed → InProgress instead of rejecting it, and the lifecycle of a task
cancelled during its execute await (which made the task a terminal Failed)
later overwrites the terminal status with Completed. -/
theorem terminal_status_overwritten_counterexample :
    (((TaskManager.init "t1" TaskType.code TaskPriority.medium).update_status
        TaskStatus.completed (some 1)).update_status
        TaskStatus.in_progress none).status = TaskStatus.in_progress ∧
    (cancel_task_entry
        ((TaskManager.init "t1" TaskType.code TaskPriority.medium).update_status
          TaskStatus.in_progress (some (1 / 5)))).2.status = TaskStatus.failed ∧
    (process_task_cancel_during_execute 5
        { agents := [Agent.init "coding-agent-1"],
          task := TaskManager.init "t1" TaskType.code TaskPriority.medium,
          total_cost := 0, cost_limit_reached := false }
        { success := true, output := [("code", "x")], error := none,
          tokens_used := 10, cost := 2, metadata := [] }
        true).task.status = TaskStatus.completed := by
  refine ⟨rfl, rfl, ?_⟩
  have h1 := process_task_acquire_some
    { agents := [Agent.init "coding-agent-1"],
      task := TaskManager.init "t1" TaskType.code TaskPriority.medium,
      total_cost := 0, cost_limit_reached := false }
    (Agent.init "coding-agent-1") rfl
  rw [process_task_cancel_eq_of_track_suspended 5 _ _ _ _ true h1
      (process_task_track_cost_pass 5 _ _ rfl
        ((by norm_num : (0 : ℚ) + 2 ≤ 5))),
    process_task_finish_valid _ _ rfl]
  rfl

/-- C1 (amended, corrected): TaskManager.update_status enforces no state
machine — every requested transition, legal or not, is applied
unconditionally, setting the requested status while leaving result, error
and accrued cost untouched; a terminal status therefore offers no protection
against later writes such as the lifecycle's own status write racing a
prior cancel. -/
theorem update_status_unconditional (t : TaskManager) (s : TaskStatus)
    (p : Option ℚ) :
    (t.update_status s p).status = s ∧
    (t.update_status s p).result = t.result ∧
    (t.update_status s p).error = t.error ∧
    (t.update_status s p).cost = t.cost :=
  ⟨rfl, rfl, rfl, rfl⟩

/-- C4 (counterexample): the pool's acquire (_get_available_agent) returns
an agent that is still Idle — marking it Busy is not part of the operation
(it happens only later, in prepare_task inside execute_task), so a caller
does observe the acquired agent as Idle after acquire returns it. -/
theorem acquire_returns_idle_agent_counterexample :
    (let a0 := Agent.init "coding-agent-1"
     get_available_agent [a0] = some a0 ∧ a0.status = AgentStatus.idle) := by
  decide

/-- C4 (amended, corrected): _get_available_agent is a pure first-Idle
lookup: it returns the first Idle agent of the category's list without
changing any agent's state (so the returned agent is still Idle after the
call), and returns None when no Idle agent exists; the agent only becomes
Busy when prepare_task runs inside execute_task. -/
theorem get_available_agent_first_idle :
    (∀ (a : Agent) (rest : List Agent),
      get_available_agent (a :: rest) =
        if a.status = AgentStatus.idle then some a
        else get_available_agent rest) ∧
    get_available_agent ([] : List Agent) = none ∧
    (∀ (pool : List Agent) (a : Agent), get_available_agent pool = some a →
      a.status = AgentStatus.idle ∧ a ∈ pool) ∧
    (∀ (a : Agent) (tid : String), a.status = AgentStatus.idle →
      a.prepare_task tid =
        some (({ a with current_task_id := some tid }).update_status
          AgentStatus.busy)) ∧
    (∀ (a : Agent) (tid : String), a.status ≠ AgentStatus.idle →
      a.prepare_task tid = none) := by
  refine ⟨fun a rest => rfl, rfl, get_available_agent_spec, ?_, ?_⟩
  · intro a tid h
    simp [Agent.prepare_task, h]
  · intro a tid h
    simp [Agent.prepare_task, h]

/-- Closed instance of `get_available_agent_first_idle` on a one-agent pool:
acquire finds the idle agent, and prepare_task is what marks it Busy. -/
theorem get_available_agent_first_idle_witness :
    (Agent.init "a1").status = AgentStatus.idle ∧
    (Agent.init "a1").prepare_task "t1" =
      some (({ Agent.init "a1" with current_task_id := some "t1" }).update_status
        AgentStatus.busy) ∧
    get_available_agent [Agent.init "a1"] = some (Agent.init "a1") := by
  have h := get_available_agent_first_idle
  exact ⟨rfl, h.2.2.2.1 (Agent.init "a1") "t1" rfl, rfl⟩

/-- C5 (counterexample): a lifecycle whose agent execution raises does not
release the agent back to Idle: CodingAgent.execute_task routes the raise
through handle_error, which leaves the agent in status Error. -/
theorem thrown_error_leaves_agent_error_counterexample :
    (let a0 := Agent.init "coding-agent-1"
     ((CodingAgent.execute_task a0 "t1" (ModelOutcome.raises "boom")).2).status
         = AgentStatus.error ∧
       ((CodingAgent.execute_task a0 "t1" (ModelOutcome.raises "boom")).2).status
         ≠ AgentStatus.idle) := by
  decide

/-- C5 (amended, corrected): on the paths where the agent's execute call
returns a parsed result (success or agent-reported failure) the acquired
agent is released back to Idle by cleanup_task; a thrown error instead
leaves it in Error, not Idle. In no case is an acquired agent left Busy
after execute_task returns, and neither a Busy nor an Error agent is ever
returned by a later acquire, so an acquired agent cannot be handed to a
second caller before its release. -/
theorem execute_task_release_discipline :
    (∀ (a : Agent) (tid : String) (r : AgentResult) (tok : Nat),
      a.status = AgentStatus.idle →
      ((CodingAgent.execute_task a tid (ModelOutcome.ok r tok)).2).status
        = AgentStatus.idle) ∧
    (∀ (a : Agent) (tid msg : String),
      a.status = AgentStatus.idle →
      ((CodingAgent.execute_task a tid (ModelOutcome.raises msg)).2).status
        = AgentStatus.error) ∧
    (∀ (a : Agent) (tid : String) (oc : ModelOutcome),
      a.status = AgentStatus.idle →
      ((CodingAgent.execute_task a tid oc).2).status ≠ AgentStatus.busy) ∧
    (∀ (a : Agent) (res : AgentResult) (oc : ValidationOutcome),
      a.status = AgentStatus.idle →
      ((CodingAgent.validate_result a res oc).2).status ≠ AgentStatus.busy) ∧
    (∀ (pool : List Agent) (a : Agent), get_available_agent pool = some a →
      a.status = AgentStatus.idle) := by
  refine ⟨?_, ?_, ?_, ?_, ?_⟩
  · intro a tid r tok h
    simp [CodingAgent.execute_task, Agent.prepare_task, h, Agent.cleanup_task,
      Agent.update_status]
  · intro a tid msg h
    simp [CodingAgent.execute_task, Agent.prepare_task, h, Agent.handle_error,
      Agent.update_status]
  · intro a tid oc h
    cases oc with
    | ok r tok =>
        simp [CodingAgent.execute_task, Agent.prepare_task, h,
          Agent.cleanup_task, Agent.update_status]
    | raises msg =>
        simp [CodingAgent.execute_task, Agent.prepare_task, h,
          Agent.handle_error, Agent.update_status]
  · intro a res oc h
    unfold CodingAgent.validate_result
    split
    · simp [h]
    · split
      · simp [h]
      · split
        · simp [h]
        · split
          · simp [Agent.handle_error, Agent.update_status]
          · simp [Agent.track_usage, h]
  · intro pool a h
    exact (get_available_agent_spec pool a h).1

/-- Closed instance of `execute_task_release_discipline` on a fresh idle
agent: a returned result releases the agent, a raise leaves it in Error. -/
theorem execute_task_release_discipline_witness :
    ((CodingAgent.execute_task (Agent.init "a1") "t1"
        (ModelOutcome.ok { success := true, output := [], error := none,
                           tokens_used := 3, cost := 0, metadata := [] }
          3)).2).status
      = AgentStatus.idle ∧
    ((CodingAgent.execute_task (Agent.init "a1") "t1"
        (ModelOutcome.raises "boom")).2).status = AgentStatus.error := by
  have h := execute_task_release_discipline
  exact ⟨h.1 (Agent.init "a1") "t1" _ 3 rfl, h.2.1 (Agent.init "a1") "t1" "boom" rfl⟩

/-- C6 (counterexample): a cancel interleaved with the lifecycle's execute
await breaks the exactly-one invariant — the lifecycle's later writes
produce a terminal (Completed) task carrying both a stored result and the
cancel's error string. -/
theorem completed_task_with_error_counterexample :
    (process_task_cancel_during_execute 5
        { agents := [Agent.init "coding-agent-1"],
          task := TaskManager.init "t1" TaskType.code TaskPriority.medium,
          total_cost := 0, cost_limit_reached := false }
        { success := true, output := [("code", "x")], error := none,
          tokens_used := 10, cost := 2, metadata := [] }
        true).task.status = TaskStatus.completed ∧
    (process_task_cancel_during_execute 5
        { agents := [Agent.init "coding-agent-1"],
          task := TaskManager.init "t1" TaskType.code TaskPriority.medium,
          total_cost := 0, cost_limit_reached := false }
        { success := true, output := [("code", "x")], error := none,
          tokens_used := 10, cost := 2, metadata := [] }
        true).task.result =
      some { success := true, output := [("code", "x")], error := none,
             tokens_used := 10, cost := 2, metadata := [] } ∧
    (process_task_cancel_during_execute 5
        { agents := [Agent.init "coding-agent-1"],
          task := TaskManager.init "t1" TaskType.code TaskPriority.medium,
          total_cost := 0, cost_limit_reached := false }
        { success := true, output := [("code", "x")], error := none,
          tokens_used := 10, cost := 2, metadata := [] }
        true).task.error = some "Task cancelled by user" := by
  have h1 := process_task_acquire_some
    { agents := [Agent.init "coding-agent-1"],
      task := TaskManager.init "t1" TaskType.code TaskPriority.medium,
      total_cost := 0, cost_limit_reached := false }
    (Agent.init "coding-agent-1") rfl
  have hrun := process_task_cancel_eq_of_track_suspended 5 _ _ _
    { success := true, output := [("code", "x")], error := none,
      tokens_used := 10, cost := 2, metadata := [] }
    true h1
    (process_task_track_cost_pass 5 _ _ rfl ((by norm_num : (0 : ℚ) + 2 ≤ 5)))
  rw [process_task_finish_valid _ _ rfl] at hrun
  refine ⟨?_, ?_, ?_⟩
  · rw [hrun]; rfl
  · rw [hrun]
  · rw [hrun]; rfl

/-- C6 (amended, corrected): in a lifecycle with no interleaved cancel, and
given that an unsuccessful agent result carries an error message (true of
every AgentResult the repo's agents construct), the final task is terminal
with exactly one of result and error set, and the two intermediate
suspended states (InProgress and Verifying) carry neither; but the
exactly-one invariant does not survive a cancel racing the lifecycle, which
can leave a Completed task with both set. -/
theorem terminal_exactly_one_sequential (limit : ℚ) (st : OrchState)
    (r : AgentResult) (v : Bool) (id : String) (ty : TaskType)
    (pr : TaskPriority) (herr : r.success = false → r.error.isSome = true) :
    ((process_task limit { st with task := TaskManager.init id ty pr } r
        v).task.status = TaskStatus.completed ∨
      (process_task limit { st with task := TaskManager.init id ty pr } r
        v).task.status = TaskStatus.failed) ∧
    (((process_task limit { st with task := TaskManager.init id ty pr } r
          v).task.result.isSome = true ∧
       (process_task limit { st with task := TaskManager.init id ty pr } r
          v).task.error = none) ∨
      ((process_task limit { st with task := TaskManager.init id ty pr } r
          v).task.result = none ∧
       (process_task limit { st with task := TaskManager.init id ty pr } r
          v).task.error.isSome = true)) ∧
    (∀ st1, process_task_acquire { st with task := TaskManager.init id ty pr }
        = LifecycleStage.suspended st1 →
      st1.task.status = TaskStatus.in_progress ∧
      st1.task.result = none ∧ st1.task.error = none) ∧
    (∀ st1 st2, process_task_track_cost limit st1 r
        = LifecycleStage.suspended st2 →
      st2.task.status = TaskStatus.verifying ∧
      st2.task.result = st1.task.result ∧
      st2.task.error = st1.task.error) := by
  refine ⟨?_, ?_, ?_, ?_⟩
  case refine_3 =>
    intro st1 h
    cases hA : get_available_agent
        ({ st with task := TaskManager.init id ty pr }).agents with
    | none =>
        rw [process_task_acquire_none _ hA] at h
        exact LifecycleStage.noConfusion h
    | some a =>
        rw [process_task_acquire_some _ a hA] at h
        cases h
        exact ⟨rfl, rfl, rfl⟩
  case refine_4 =>
    intro st1 st2 h
    cases hs : r.success with
    | false =>
        rw [process_task_track_cost_unsuccessful limit st1 r hs] at h
        exact LifecycleStage.noConfusion h
    | true =>
        rcases le_or_lt (st1.total_cost + r.cost) limit with hle | hgt
        · rw [process_task_track_cost_pass limit st1 r hs hle] at h
          cases h
          exact ⟨rfl, rfl, rfl⟩
        · rw [process_task_track_cost_fail limit st1 r hs hgt] at h
          exact LifecycleStage.noConfusion h
  all_goals
    cases hA : get_available_agent
        ({ st with task := TaskManager.init id ty pr }).agents with
    | none =>
        rw [process_task_eq_of_acquire_done limit _ _ r v
          (process_task_acquire_none _ hA)]
        first
          | exact Or.inr rfl
          | exact Or.inr ⟨rfl, rfl⟩
    | some a =>
        have h1 := process_task_acquire_some _ a hA
        cases hs : r.success with
        | false =>
            rw [process_task_eq_of_track_done limit _ _ _ r v h1
              (process_task_track_cost_unsuccessful limit _ r hs)]
            first
              | exact Or.inr rfl
              | exact Or.inr ⟨rfl, herr hs⟩
        | true =>
            rcases le_or_lt
                (({ st with task := TaskManager.init id ty pr }).total_cost
                  + r.cost) limit with hle | hgt
            · rw [process_task_eq_of_track_suspended limit _ _ _ r v h1
                (process_task_track_cost_pass limit _ r hs hle)]
              cases v with
              | false =>
                  rw [process_task_finish_invalid]
                  first
                    | exact Or.inr rfl
                    | exact Or.inr ⟨rfl, rfl⟩
              | true =>
                  rw [process_task_finish_valid _ r hs]
                  first
                    | exact Or.inl rfl
                    | exact Or.inl ⟨rfl, rfl⟩
            · rw [process_task_eq_of_track_done limit _ _ _ r v h1
                (process_task_track_cost_fail limit _ r hs hgt)]
              first
                | exact Or.inr rfl
                | exact Or.inr ⟨rfl, rfl⟩

/-- Closed instance of `terminal_exactly_one_sequential`: the Scenario-A run
ends terminal with exactly one of result and error set. -/
theorem terminal_exactly_one_sequential_witness :
    ((process_task 5
        { agents := [Agent.init "coding-agent-1"],
          task := TaskManager.init "t1" TaskType.code TaskPriority.medium,
          total_cost := 0, cost_limit_reached := false }
        { success := true, output := [("code", "x")], error := none,
          tokens_used := 10, cost := 2, metadata := [] }
        true).task.status = TaskStatus.completed ∨
      (process_task 5
        { agents := [Agent.init "coding-agent-1"],
          task := TaskManager.init "t1" TaskType.code TaskPriority.medium,
          total_cost := 0, cost_limit_reached := false }
        { success := true, output := [("code", "x")], error := none,
          tokens_used := 10, cost := 2, metadata := [] }
        true).task.status = TaskStatus.failed) ∧
    (((process_task 5
          { agents := [Agent.init "coding-agent-1"],
            task := TaskManager.init "t1" TaskType.code TaskPriority.medium,
            total_cost := 0, cost_limit_reached := false }
          { success := true, output := [("code", "x")], error := none,
            tokens_used := 10, cost := 2, metadata := [] }
          true).task.result.isSome = true ∧
       (process_task 5
          { agents := [Agent.init "coding-agent-1"],
            task := TaskManager.init "t1" TaskType.code TaskPriority.medium,
            total_cost := 0, cost_limit_reached := false }
          { success := true, output := [("code", "x")], error := none,
            tokens_used := 10, cost := 2, metadata := [] }
          true).task.error = none) ∨
      ((process_task 5
          { agents := [Agent.init "coding-agent-1"],
            task := TaskManager.init "t1" TaskType.code TaskPriority.medium,
            total_cost := 0, cost_limit_reached := false }
          { success := true, output := [("code", "x")], error := none,
            tokens_used := 10, cost := 2, metadata := [] }
          true).task.result = none ∧
       (process_task 5
          { agents := [Agent.init "coding-agent-1"],
            task := TaskManager.init "t1" TaskType.code TaskPriority.medium,
            total_cost := 0, cost_limit_reached := false }
          { success := true, output := [("code", "x")], error := none,
            tokens_used := 10, cost := 2, metadata := [] }
          true).task.error.isSome = true)) := by
  have h := terminal_exactly_one_sequential 5
    { agents := [Agent.init "coding-agent-1"],
      task := TaskManager.init "t1" TaskType.code TaskPriority.medium,
      total_cost := 0, cost_limit_reached := false }
    { success := true, output := [("code", "x")], error := none,
      tokens_used := 10, cost := 2, metadata := [] }
    true "t1" TaskType.code TaskPriority.medium (by decide)
  exact ⟨h.1, h.2.1⟩

/-- C7 (counterexample): on an unknown task id, get_task_status raises
("Task not found") but cancel_task returns the silent boolean False with no
error signalled — the claim that both fail with a NotFound error is false
for cancel. -/
theorem cancel_unknown_id_silent_counterexample :
    get_task_status [] "missing" = Except.error "Task not found" ∧
    cancel_task [] "missing" = (false, []) :=
  ⟨rfl, rfl⟩

/-- C7 (amended, corrected): the status query on an unknown id raises
ValueError("Task not found"); the cancel operation on an unknown id instead
returns False without raising and leaves the registry unchanged — the same
silent result it returns for an already-terminal task, so the caller cannot
distinguish an unknown id from a no-op cancel. -/
theorem unknown_id_status_raises_cancel_silent
    (tasks : List (String × TaskManager)) (id : String) :
    (tasks.lookup id = none →
      get_task_status tasks id = Except.error "Task not found" ∧
      cancel_task tasks id = (false, tasks)) ∧
    (∀ t, tasks.lookup id = some t →
      (t.status = TaskStatus.completed ∨ t.status = TaskStatus.failed) →
      cancel_task tasks id = (false, tasks)) := by
  constructor
  · intro h
    constructor
    · unfold get_task_status
      rw [h]
    · unfold cancel_task
      rw [h]
  · intro t ht hterm
    unfold cancel_task
    rw [ht]
    dsimp only
    unfold cancel_task_entry
    rw [if_pos hterm]

/-- Closed instance of `unknown_id_status_raises_cancel_silent` at the empty
registry and at a registry whose only task is terminal. -/
theorem unknown_id_status_raises_cancel_silent_witness :
    get_task_status [] "x" = Except.error "Task not found" ∧
    cancel_task [] "x" = (false, []) ∧
    cancel_task
        [("t1", (TaskManager.init "t1" TaskType.code
          TaskPriority.low).update_status TaskStatus.failed none)] "t1" =
      (false, [("t1", (TaskManager.init "t1" TaskType.code
        TaskPriority.low).update_status TaskStatus.failed none)]) := by
  have h1 := unknown_id_status_raises_cancel_silent
    ([] : List (String × TaskManager)) "x"
  have h2 := unknown_id_status_raises_cancel_silent
    [("t1", (TaskManager.init "t1" TaskType.code
      TaskPriority.low).update_status TaskStatus.failed none)] "t1"
  exact ⟨(h1.1 rfl).1, (h1.1 rfl).2, h2.2 _ rfl (Or.inr rfl)⟩

theorem get_available_agent_eq_none (pool : List Agent)
    (h : ∀ a ∈ pool, a.status ≠ AgentStatus.idle) :
    get_available_agent pool = none := by
  induction pool with
  | nil => rfl
  | cons b rest ih =>
      unfold get_available_agent
      rw [if_neg (h b (List.mem_cons_self b rest))]
      exact ih (fun a ha => h a (List.mem_cons_of_mem b ha))

/-- C10 (confirmed): an exception raised inside CodingAgent.execute_task (on
an acquired idle agent) or inside CodingAgent.validate_result (where the
verification call happens: successful result with non-empty "code") puts the
agent in Error via handle_error; _get_available_agent never returns an agent
whose status is Error; no modelled operation moves an agent out of Error
(execute and validate both preserve Error); and once every agent of a
category is in Error, each later lifecycle of that category ends Failed with
error "No available agent found". -/
theorem agent_error_is_permanent :
    (∀ (a : Agent) (tid msg : String), a.status = AgentStatus.idle →
      ((CodingAgent.execute_task a tid (ModelOutcome.raises msg)).2).status
        = AgentStatus.error) ∧
    (∀ (a : Agent) (res : AgentResult) (code msg : String),
      res.success = true → res.output.lookup "code" = some code →
      code ≠ "" →
      ((CodingAgent.validate_result a res
          (ValidationOutcome.raises msg)).2).status = AgentStatus.error) ∧
    (∀ (pool : List Agent) (a : Agent), get_available_agent pool = some a →
      a.status ≠ AgentStatus.error) ∧
    (∀ (a : Agent) (tid : String) (oc : ModelOutcome),
      a.status = AgentStatus.error →
      ((CodingAgent.execute_task a tid oc).2).status = AgentStatus.error) ∧
    (∀ (a : Agent) (res : AgentResult) (oc : ValidationOutcome),
      a.status = AgentStatus.error →
      ((CodingAgent.validate_result a res oc).2).status
        = AgentStatus.error) ∧
    (∀ (limit : ℚ) (st : OrchState) (r : AgentResult) (v : Bool),
      (∀ a ∈ st.agents, a.status = AgentStatus.error) →
      (process_task limit st r v).task.status = TaskStatus.failed ∧
      (process_task limit st r v).task.error
        = some "No available agent found") := by
  refine ⟨?_, ?_, ?_, ?_, ?_, ?_⟩
  · intro a tid msg h
    simp [CodingAgent.execute_task, Agent.prepare_task, h, Agent.handle_error,
      Agent.update_status]
  · intro a res code msg hres hcode hne
    unfold CodingAgent.validate_result
    simp [hres, hcode, hne, Agent.handle_error, Agent.update_status]
  · intro pool a h
    rw [(get_available_agent_spec pool a h).1]
    decide
  · intro a tid oc h
    simp [CodingAgent.execute_task, Agent.prepare_task, h]
  · intro a res oc h
    unfold CodingAgent.validate_result
    split
    · simp [h]
    · split
      · simp [h]
      · split
        · simp [h]
        · split
          · simp [Agent.handle_error, Agent.update_status]
          · simp [Agent.track_usage, h]
  · intro limit st r v hall
    have hA := get_available_agent_eq_none st.agents
      (fun a ha => by rw [hall a ha]; decide)
    rw [process_task_eq_of_acquire_done limit st _ r v
      (process_task_acquire_none st hA)]
    exact ⟨rfl, rfl⟩

/-- Closed instance of `agent_error_is_permanent`: a raise during execute
puts the fresh agent in Error, a raise during validation does too, an
errored agent stays in Error through a later execute, and a pool consisting
of that errored agent makes the next lifecycle fail with the no-agent
error. -/
theorem agent_error_is_permanent_witness :
    ((CodingAgent.execute_task (Agent.init "a1") "t1"
        (ModelOutcome.raises "boom")).2).status = AgentStatus.error ∧
    ((CodingAgent.validate_result (Agent.init "a1")
        { success := true, output := [("code", "x")], error := none,
          tokens_used := 10, cost := 2, metadata := [] }
        (ValidationOutcome.raises "boom")).2).status = AgentStatus.error ∧
    ((CodingAgent.execute_task ((Agent.init "a1").handle_error) "t2"
        (ModelOutcome.raises "again")).2).status = AgentStatus.error ∧
    (process_task 5
        { agents := [(Agent.init "a1").handle_error],
          task := TaskManager.init "t3" TaskType.code TaskPriority.medium,
          total_cost := 0, cost_limit_reached := false }
        { success := true, output := [("code", "x")], error := none,
          tokens_used := 10, cost := 2, metadata := [] }
        true).task.error = some "No available agent found" := by
  have h := agent_error_is_permanent
  refine ⟨h.1 (Agent.init "a1") "t1" "boom" rfl,
    h.2.1 (Agent.init "a1") _ "x" "boom" rfl rfl (by decide),
    h.2.2.2.1 ((Agent.init "a1").handle_error) "t2"
      (ModelOutcome.raises "again") rfl, ?_⟩
  exact (h.2.2.2.2.2 5
    { agents := [(Agent.init "a1").handle_error],
      task := TaskManager.init "t3" TaskType.code TaskPriority.medium,
      total_cost := 0, cost_limit_reached := false }
    { success := true, output := [("code", "x")], error := none,
      tokens_used := 10, cost := 2, metadata := [] }
    true
    (fun a ha => by rw [List.mem_singleton.mp ha]; rfl)).2

end AIOrch
